import Mathlib

/-!
Shallow embedding of the bulk-ingestion core of `chatbot/db/scylla_loader.py`
(`ScyllaLoader`): the partitioner `_create_chunks`, the statement builder
`_generate_insert_statement`, the worker `_worker`, and the coordinator
`multi_ingest`.

A load-bearing fact of the source: `_worker` executes
`session = self.create_session()` (line 81) passing none of the three
required positional parameters (`host`, `passwd`, `keyspace`) of
`create_session` (line 29), so Python raises `TypeError` there,
unconditionally, before the insert statement is prepared and before the
first batch loop iteration; the only `try/except` in `_worker` (lines 74-78)
covers just the psutil affinity block, so the exception is uncaught and the
spawned worker process dies.  Consequently no batch is ever attempted, the
shared counter is never incremented, no worker ever sets the abort event and
no worker session is ever created or shut down.  The batch loop of lines
84-113 is dead code; it is embedded anyway (`workerGo`, `batchRetry`,
`batchesOf`) to document what it computes, while `_worker` itself models the
crash.

Modelling conventions:
* a Python row dict is a `Row`: an ordered association list of column name and
  value (Python dicts preserve insertion order; `dict.keys` / `dict.values`
  become `map Prod.fst` / `map Prod.snd`);
* would-be network execution of one batch is represented by a failure oracle
  `fails : Nat → Bool` (attempt index ↦ does `execute_concurrent_with_args`
  raise on that attempt); for a whole worker the oracle also takes the batch
  index, and for a whole run also the worker id; the real worker never
  consults it, dying first;
* `time.sleep` durations are recorded as exact rationals (the Python floats
  `0.5 * 2 ** attempt` are exactly representable for the attempts reached);
* raised Python exceptions become `Except PyError`, and an exception that
  kills a worker child process (invisible to the joining parent) is the
  `raised` field of its result;
* real wall-clock time (`time.time()`, `elapsed`) and the tqdm progress bar
  rendering are outside the model; the monitor thread mutates no ingestion
  state.
-/

/-- One row destined for the table: ordered list of (column name, value).
Values are abstracted to `Nat`; only their count and order matter here. -/
abbrev Row := List (String × Nat)

/-- Python exceptions that the embedded code can raise.  `typeError` is the
exception from calling `create_session()` with none of its three required
positional arguments (`host`, `passwd`, `keyspace`). -/
inductive PyError where
  | valueError (msg : String)
  | zeroDivisionError
  | typeError
deriving DecidableEq, Repr

/-- `ScyllaLoader.MAX_RETRIES`. -/
def MAX_RETRIES : Nat := 5

/-- `ScyllaLoader.RETRY_DELAY` (the Python float `0.5`, exact as a rational). -/
def RETRY_DELAY : ℚ := 1/2

/-- Python slice `data[start:stop]` for `0 ≤ start ≤ stop`. -/
def pySlice (data : List Row) (start stop : Nat) : List Row :=
  (data.drop start).take (stop - start)

/-- Loop body of `_create_chunks`: iteration `i` appends
`data[start_idx:end_idx]` with `end_idx = start_idx + chunk_size + (1 if i < remainder else 0)`.
The first argument of the recursion is the number of remaining iterations of
`for i in range(process_count)`. -/
def createChunksGo (data : List Row) (cs r : Nat) : Nat → Nat → Nat → List (List Row)
  | 0, _, _ => []
  | k + 1, i, start =>
    pySlice data start (start + cs + (if i < r then 1 else 0)) ::
      createChunksGo data cs r k (i + 1) (start + cs + (if i < r then 1 else 0))

/-- `ScyllaLoader._create_chunks(data, process_count)` for `process_count ≥ 1`:
`chunk_size = len(data) // process_count`, `remainder = len(data) % process_count`,
then the `for i in range(process_count)` loop over slices. -/
def _create_chunks (data : List Row) (process_count : Nat) : List (List Row) :=
  createChunksGo data (data.length / process_count) (data.length % process_count)
    process_count 0 0

/-- `ScyllaLoader._create_chunks` with full Python integer semantics for the
divisor: `len(data) // 0` raises `ZeroDivisionError`; for a negative
`process_count` the divisions succeed but `range(process_count)` is empty, so
the function returns an empty list of chunks.  For positive `process_count`
Python floor division and modulo on non-negative operands agree with `Nat`
division, so the computation is `_create_chunks`. -/
def _create_chunks_int (data : List Row) (process_count : Int) :
    Except PyError (List (List Row)) :=
  if process_count = 0 then .error .zeroDivisionError
  else if process_count < 0 then .ok []
  else .ok (_create_chunks data process_count.toNat)

/-- Size of chunk `i`: `chunk_size` plus one extra element for `i < remainder`. -/
def chunkSz (cs r i : Nat) : Nat := cs + (if i < r then 1 else 0)

/-- Sum of the sizes of the `k` chunks starting at index `i`. -/
def sumSz (cs r : Nat) : Nat → Nat → Nat
  | 0, _ => 0
  | k + 1, i => chunkSz cs r i + sumSz cs r k (i + 1)

/-- `ScyllaLoader._generate_insert_statement(keyspace, table, columns)`:
joins column names with a comma, one "?" placeholder per column, and formats
the f-string template. -/
def _generate_insert_statement (keyspace table : String) (columns : List String) :
    String :=
  "INSERT INTO " ++ keyspace ++ "." ++ table ++ " (" ++
    String.intercalate ", " columns ++ ") VALUES (" ++
    String.intercalate ", " (columns.map (fun _ => "?")) ++ ");"

/-- Number of occurrences of the placeholder character in a string. -/
def qCount (s : String) : Nat := s.data.count '?'

/-- Result of the retry loop (`while attempt < self.MAX_RETRIES`) for one
batch: how many times `execute_concurrent_with_args` was attempted, the
`time.sleep` delays performed between attempts, and whether the loop ended
with a successful execution (`ok = true`) or with retry exhaustion. -/
structure RetryRes where
  execs : Nat
  sleeps : List ℚ
  ok : Bool
deriving DecidableEq, Repr

/-- The retry loop body, structurally recursive on the remaining loop budget
`fuel = MAX_RETRIES - attempt`.  `fails a` tells whether the execution on
attempt counter value `a` raises.  On failure the code increments `attempt`;
if `attempt >= MAX_RETRIES` it aborts (the caller sets the event, shuts the
session and returns), otherwise it sleeps `RETRY_DELAY * 2 ** attempt` and
loops. The `fuel = 0` case is unreachable from `batchRetry`. -/
def batchRetryAux (fails : Nat → Bool) : Nat → Nat → RetryRes
  | _, 0 => ⟨0, [], false⟩
  | attempt, fuel + 1 =>
    if fails attempt then
      if MAX_RETRIES ≤ attempt + 1 then ⟨1, [], false⟩
      else
        let r := batchRetryAux fails (attempt + 1) fuel
        ⟨r.execs + 1, RETRY_DELAY * 2 ^ (attempt + 1) :: r.sleeps, r.ok⟩
    else ⟨1, [], true⟩

/-- The whole retry loop for one batch, starting at `attempt = 0`. -/
def batchRetry (fails : Nat → Bool) : RetryRes :=
  batchRetryAux fails 0 MAX_RETRIES

/-- `for i in range(0, len(batch_data), batch_size)`: the successive slices
`batch_data[i : i + batch_size]`.  Structurally recursive on a fuel bounding
the number of iterations (`chunk.length` iterations suffice for
`batch_size ≥ 1`; Python `range` with step `0` raises, so `batchesOf` guards
on it and that case is never used by the claims). -/
def batchesOfGo (chunk : List Row) (bs : Nat) : Nat → Nat → List (List Row)
  | 0, _ => []
  | fuel + 1, i =>
    if i < chunk.length then
      (chunk.drop i).take bs :: batchesOfGo chunk bs fuel (i + bs)
    else []

/-- The batches of one chunk, in order. -/
def batchesOf (chunk : List Row) (bs : Nat) : List (List Row) :=
  if bs = 0 then [] else batchesOfGo chunk bs chunk.length 0

/-- Observable outcome of one `_worker` call: the counter increments it
performed (one per committed batch, equal to the batch length, in order), the
sleep delays, the number of execution attempts per started batch, whether it
set the shared event, whether it shut its session down, and the uncaught
exception (if any) that killed the worker process — invisible to the joining
parent, which observes it only through the counter staying behind. -/
structure WorkerResult where
  incs : List Nat
  sleeps : List ℚ
  attempts : List Nat
  eventSet : Bool
  sessionClosed : Bool
  raised : Option PyError
deriving DecidableEq, Repr

/-- The per-batch loop of lines 84-113 over the remaining batches, `bIdx`
being the index of the next batch.  A successful batch appends
`counter.value += len(batch)`; exhausted retries set the event, shut the
session down and return at once, leaving the remaining batches unprocessed;
after the last batch the session is shut down.  This loop is DEAD CODE in the
program: `_worker` raises `TypeError` at line 81 before reaching it (see
`_worker` below); it is embedded to document what the loop, as written, would
compute. -/
def workerGo (fails : Nat → Nat → Bool) : Nat → List (List Row) → WorkerResult
  | _, [] => ⟨[], [], [], false, true, none⟩
  | bIdx, batch :: rest =>
    let r := batchRetry (fails bIdx)
    if r.ok then
      let w := workerGo fails (bIdx + 1) rest
      ⟨batch.length :: w.incs, r.sleeps ++ w.sleeps, r.execs :: w.attempts,
        w.eventSet, w.sessionClosed, w.raised⟩
    else
      ⟨[], r.sleeps, [r.execs], true, true, none⟩

/-- `ScyllaLoader._worker` on one chunk.  Line 81 executes
`session = self.create_session()` with none of the three required positional
parameters (`host`, `passwd`, `keyspace`) of `create_session` (line 29):
Python raises `TypeError` there, before `session.prepare`, before the
row-to-tuple conversion and before the first iteration of the batch loop.
The only `try/except` of `_worker` (lines 74-78) covers just the psutil
affinity block, so the exception is uncaught and kills the worker process:
no execution attempt, no sleep, no counter increment, the shared event is
not set, and no worker session is ever created or shut down.  `event0` (the
shared event's value when the worker starts) and the would-be batch failure
oracle `fails` are never consulted. -/
def _worker (event0 : Bool) (fails : Nat → Nat → Bool) (chunk : List Row)
    (concurrency : Nat) : WorkerResult :=
  ⟨[], [], [], false, false, some .typeError⟩

/-- `for i, chunk in enumerate(data_chunks): if chunk: worker_args_list.append(...)`:
the (worker id, chunk) pairs for which a worker process is spawned. -/
def worker_args_list (chunks : List (List Row)) : List (Nat × List Row) :=
  chunks.enum.filter (fun p => !p.2.isEmpty)

/-- Modelled from the spec: the `IngestionReport` record that §6 of the design
says `bulk_ingest` returns (`elapsed_seconds`, being wall-clock time, is
outside the model).  The source's `multi_ingest` never constructs such a
value: it prints the outcome and returns `None`. -/
structure IngestionReport where
  committed_rows : Nat
  total_rows : Nat
  aborted : Bool
deriving DecidableEq, Repr

/-- Which of the two final messages `multi_ingest` prints. -/
inductive PrintedOutcome where
  | abortedMsg (committed total : Nat)
  | doneMsg (total : Nat)
deriving DecidableEq, Repr

/-- Observables of one `multi_ingest` call: the generated insert statement,
the final shared-counter value after all workers were joined, the dataset
length, the printed outcome, and the value the Python function returns
(`none`: the function body has no `return` statement). -/
structure MultiIngestResult where
  insertStmt : String
  finalCounter : Nat
  rowCount : Nat
  printed : PrintedOutcome
  returned : Option IngestionReport
deriving DecidableEq, Repr

/-- `ScyllaLoader.multi_ingest(data, keyspace, table, concurrency)`.
`P` stands for `multiprocessing.cpu_count()` (an external value, `≥ 1` on any
host).  The `isinstance` checks hold by typing in the embedding, so only the
emptiness test of `not data` can fire.  Each spawned worker process dies with
the line-81 `TypeError` (see `_worker`); a child's uncaught exception does
not propagate to the parent, whose `p.join()` simply returns, so the run
completes with the counter equal to the sum of all workers' increments —
which is 0, every increment list being empty.  The final message is the
aborted one whenever `counter.value < row_count`, the success one otherwise.
`fails w b a`: would worker `w`'s batch `b` raise on attempt `a` (never
consulted, the workers dying first). -/
def multi_ingest (data : List Row) (keyspace table : String) (P concurrency : Nat)
    (fails : Nat → Nat → Nat → Bool) : Except PyError MultiIngestResult :=
  if data = [] then .error (.valueError "Data must be a non-empty list of dictionaries")
  else
    let chunks := _create_chunks data P
    let row_count := data.length
    let columns := (data.headD []).map Prod.fst
    let insert_stmt := _generate_insert_statement keyspace table columns
    let args := worker_args_list chunks
    let results := args.map (fun p => _worker false (fails p.1) p.2 concurrency)
    let counter := (results.map (fun w => w.incs.sum)).sum
    .ok ⟨insert_stmt, counter, row_count,
      if counter < row_count then .abortedMsg counter row_count
      else .doneMsg row_count,
      none⟩

/-- The per-worker increment lists of one `multi_ingest` run (one list per
spawned worker, in spawn order).  In this program every list is empty: each
worker dies at session creation before committing any batch. -/
def runIncs (data : List Row) (P concurrency : Nat)
    (fails : Nat → Nat → Nat → Bool) : List (List Nat) :=
  (worker_args_list (_create_chunks data P)).map
    (fun p => (_worker false (fails p.1) p.2 concurrency).incs)

/-- Value of the shared counter at an arbitrary moment of the run: worker `w`
has performed its first `cuts[w]` increments so far (the counter only ever
grows, each committed batch is added exactly once, in chunk order within a
worker). -/
def counterAt (cuts : List Nat) (incs : List (List Nat)) : Nat :=
  (List.zipWith (fun k l => (List.take k l).sum) cuts incs).sum

theorem sumSz_succ_right (cs r : Nat) :
    ∀ k i, sumSz cs r (k + 1) i = sumSz cs r k i + chunkSz cs r (i + k) := by
  intro k
  induction k with
  | zero => intro i; simp [sumSz]
  | succ k ih =>
    intro i
    have h := ih (i + 1)
    simp only [sumSz] at h ⊢
    rw [h]
    have : i + 1 + k = i + (k + 1) := by omega
    rw [this]
    omega

theorem sumSz_zero_eval (cs r : Nat) : ∀ k, sumSz cs r k 0 = k * cs + min k r := by
  intro k
  induction k with
  | zero => simp [sumSz]
  | succ k ih =>
    rw [sumSz_succ_right, ih, chunkSz]
    rw [Nat.succ_mul]
    simp only [Nat.zero_add]
    split <;> omega

theorem sumSz_total (N P : Nat) (hP : 1 ≤ P) :
    sumSz (N / P) (N % P) P 0 = N := by
  rw [sumSz_zero_eval]
  have hmod : N % P < P := Nat.mod_lt _ hP
  have hmin : min P (N % P) = N % P := by omega
  rw [hmin]
  have := Nat.div_add_mod N P
  calc P * (N / P) + N % P = N := by
        rw [Nat.mul_comm] at this ⊢
        exact this

theorem createChunksGo_flatten (data : List Row) (cs r : Nat) :
    ∀ (k i start : Nat), start + sumSz cs r k i = data.length →
      (createChunksGo data cs r k i start).flatten = data.drop start := by
  intro k
  induction k with
  | zero =>
    intro i start h
    simp only [sumSz, Nat.add_zero] at h
    simp [createChunksGo, List.drop_eq_nil_of_le (Nat.le_of_eq h.symm)]
  | succ k ih =>
    intro i start h
    simp only [sumSz] at h
    simp only [createChunksGo, List.flatten_cons]
    have hrec := ih (i + 1) (start + cs + (if i < r then 1 else 0)) (by
      simp only [chunkSz] at h; omega)
    rw [hrec, pySlice]
    have h1 : start + cs + (if i < r then 1 else 0) - start = chunkSz cs r i := by
      simp only [chunkSz]; omega
    rw [h1]
    have h2 : data.drop (start + cs + (if i < r then 1 else 0)) =
        (data.drop start).drop (chunkSz cs r i) := by
      rw [List.drop_drop]
      congr 1
      simp only [chunkSz]; omega
    rw [h2, List.take_append_drop]

theorem createChunksGo_lengths (data : List Row) (cs r : Nat) :
    ∀ (k i start : Nat), start + sumSz cs r k i = data.length →
      (createChunksGo data cs r k i start).map List.length =
        (List.range k).map (fun j => chunkSz cs r (i + j)) := by
  intro k
  induction k with
  | zero => intro i start _; simp [createChunksGo]
  | succ k ih =>
    intro i start h
    simp only [sumSz, chunkSz] at h
    simp only [createChunksGo, List.map_cons]
    have hrec := ih (i + 1) (start + cs + (if i < r then 1 else 0)) (by omega)
    rw [hrec]
    have hlen : (pySlice data start (start + cs + (if i < r then 1 else 0))).length =
        chunkSz cs r i := by
      simp only [pySlice, List.length_take, List.length_drop, chunkSz]
      omega
    rw [hlen, List.range_succ_eq_map, List.map_cons, List.map_map]
    refine congrArg₂ List.cons ?_ ?_
    · simp [chunkSz]
    · apply List.map_congr_left
      intro a _
      simp only [Function.comp_apply, chunkSz]
      have hia : i + 1 + a = i + (a + 1) := by omega
      rw [hia]

theorem createChunksGo_length (data : List Row) (cs r : Nat) :
    ∀ (k i start : Nat), (createChunksGo data cs r k i start).length = k := by
  intro k
  induction k with
  | zero => intro i start; simp [createChunksGo]
  | succ k ih => intro i start; simp [createChunksGo, ih]

theorem create_chunks_flatten (data : List Row) (P : Nat) (hP : 1 ≤ P) :
    (_create_chunks data P).flatten = data := by
  have htot : 0 + sumSz (data.length / P) (data.length % P) P 0 = data.length := by
    rw [Nat.zero_add, sumSz_total data.length P hP]
  have h := createChunksGo_flatten data (data.length / P) (data.length % P) P 0 0 htot
  rw [_create_chunks, h, List.drop_zero]

theorem create_chunks_length_sum (data : List Row) (P : Nat) (hP : 1 ≤ P) :
    ((_create_chunks data P).map List.length).sum = data.length := by
  calc ((_create_chunks data P).map List.length).sum
      = (_create_chunks data P).flatten.length := (List.length_flatten _).symm
    _ = data.length := by rw [create_chunks_flatten data P hP]

/-- C1: for every dataset of length `N ≥ 0` and worker count `P ≥ 1`,
`_create_chunks` returns exactly `P` chunks, their in-order concatenation is
the original dataset (hence contiguous, non-overlapping, ascending, lengths
summing to `N`), and the list of chunk lengths is `N / P` plus one extra
element for each of the first `N % P` chunks. -/
theorem create_chunks_spec_C1 (data : List Row) (P : Nat) (hP : 1 ≤ P) :
    (_create_chunks data P).length = P ∧
    (_create_chunks data P).flatten = data ∧
    ((_create_chunks data P).map List.length).sum = data.length ∧
    (_create_chunks data P).map List.length =
      (List.range P).map
        (fun i => data.length / P + (if i < data.length % P then 1 else 0)) := by
  have htot : 0 + sumSz (data.length / P) (data.length % P) P 0 = data.length := by
    rw [Nat.zero_add, sumSz_total data.length P hP]
  have hlens := createChunksGo_lengths data (data.length / P) (data.length % P) P 0 0 htot
  refine ⟨createChunksGo_length data _ _ P 0 0, create_chunks_flatten data P hP,
    create_chunks_length_sum data P hP, ?_⟩
  rw [_create_chunks] at *
  rw [hlens]
  apply List.map_congr_left
  intro a _
  simp [chunkSz]

/-- C1 witness: the concrete dataset of 5 rows split for 3 workers. -/
theorem create_chunks_spec_C1_witness :
    (_create_chunks [[("a",1)],[("b",2)],[("c",3)],[("d",4)],[("e",5)]] 3).length = 3 ∧
    (_create_chunks [[("a",1)],[("b",2)],[("c",3)],[("d",4)],[("e",5)]] 3).flatten =
      [[("a",1)],[("b",2)],[("c",3)],[("d",4)],[("e",5)]] ∧
    ((_create_chunks [[("a",1)],[("b",2)],[("c",3)],[("d",4)],[("e",5)]] 3).map
      List.length).sum = 5 ∧
    (_create_chunks [[("a",1)],[("b",2)],[("c",3)],[("d",4)],[("e",5)]] 3).map
      List.length =
      (List.range 3).map (fun i => 5 / 3 + (if i < 5 % 3 then 1 else 0)) := by
  have h := create_chunks_spec_C1
    [[("a",1)],[("b",2)],[("c",3)],[("d",4)],[("e",5)]] 3 (by decide)
  simpa using h

theorem createChunksGo_past_remainder (data : List Row) (r : Nat) :
    ∀ (k i start : Nat), r ≤ i →
      createChunksGo data 0 r k i start = List.replicate k ([] : List Row) := by
  intro k
  induction k with
  | zero => intro i start _; simp [createChunksGo]
  | succ k ih =>
    intro i start hi
    have hif : ¬ i < r := by omega
    simp only [createChunksGo, hif, if_false, Nat.add_zero]
    rw [ih (i + 1) start (by omega)]
    have : pySlice data start start = [] := by
      simp [pySlice]
    rw [this, List.replicate_succ]

theorem createChunksGo_singletons (data : List Row) :
    ∀ (k i : Nat), createChunksGo data 0 data.length k i i =
      ((data.drop i).take k).map (fun x => [x]) ++
        List.replicate (k - (data.length - i)) ([] : List Row) := by
  intro k
  induction k with
  | zero => intro i; simp [createChunksGo]
  | succ k ih =>
    intro i
    by_cases hi : i < data.length
    · simp only [createChunksGo, hi, if_true, Nat.add_zero]
      rw [ih (i + 1)]
      have hdrop := List.drop_eq_getElem_cons (l := data) (n := i) hi
      have hslice : pySlice data i (i + 1) = [data[i]] := by
        simp only [pySlice, Nat.add_sub_cancel_left]
        rw [hdrop]
        rfl
      have htake : (data.drop i).take (k + 1) = data[i] :: (data.drop (i + 1)).take k := by
        rw [hdrop, List.take_succ_cons]
      rw [hslice, htake, List.map_cons, List.cons_append]
      refine congrArg₂ List.cons rfl (congrArg₂ (· ++ ·) rfl ?_)
      congr 1
      omega
    · rw [createChunksGo_past_remainder data data.length (k + 1) i i (by omega)]
      have hdrop : data.drop i = [] := List.drop_eq_nil_of_le (by omega)
      rw [hdrop]
      have : data.length - i = 0 := by omega
      simp [this]

theorem create_chunks_more_workers (data : List Row) (P : Nat)
    (h : data.length < P) :
    _create_chunks data P =
      data.map (fun x => [x]) ++ List.replicate (P - data.length) ([] : List Row) := by
  rw [_create_chunks, Nat.div_eq_of_lt h, Nat.mod_eq_of_lt h]
  have := createChunksGo_singletons data P 0
  rw [this, List.drop_zero, List.take_of_length_le (by omega), Nat.sub_zero]

theorem worker_args_nonempty (chunks : List (List Row)) :
    ∀ p ∈ worker_args_list chunks, p.2 ≠ [] := by
  intro p hp
  have := List.of_mem_filter hp
  simpa using this

theorem enumFrom_filter_replicate_nil (m : Nat) :
    ∀ n, (List.enumFrom n (List.replicate m ([] : List Row))).filter
      (fun p => !p.2.isEmpty) = [] := by
  induction m with
  | zero => intro n; simp
  | succ m ih => intro n; simp [List.replicate_succ, ih]

theorem enumFrom_filter_nonempty (A : List (List Row)) (hA : ∀ a ∈ A, a ≠ []) (m : Nat) :
    ∀ n, (List.enumFrom n (A ++ List.replicate m ([] : List Row))).filter
      (fun p => !p.2.isEmpty) = List.enumFrom n A := by
  induction A with
  | nil => intro n; simpa using enumFrom_filter_replicate_nil m n
  | cons a A ih =>
    intro n
    have ha : a ≠ [] := hA a (by simp)
    have ha' : (!a.isEmpty) = true := by
      cases a with
      | nil => exact absurd rfl ha
      | cons x xs => rfl
    simp only [List.cons_append, List.enumFrom_cons, List.filter_cons, ha', if_true]
    rw [ih (fun b hb => hA b (by simp [hb])) (n + 1)]

/-- C7: when the dataset is shorter than the worker count, `_create_chunks`
yields exactly `N` singleton chunks followed by `P - N` empty chunks, and the
coordinator's `worker_args_list` (the `if chunk:` filter of
`enumerate(data_chunks)`, from which exactly one process per entry is
spawned) keeps exactly the `N` non-empty chunks and no empty one. -/
theorem create_chunks_small_C7 (data : List Row) (P : Nat) (h2 : data.length < P) :
    _create_chunks data P =
      data.map (fun x => [x]) ++ List.replicate (P - data.length) ([] : List Row) ∧
    worker_args_list (_create_chunks data P) = (data.map (fun x => [x])).enum ∧
    (worker_args_list (_create_chunks data P)).length = data.length ∧
    ∀ p ∈ worker_args_list (_create_chunks data P), p.2 ≠ [] := by
  have hchunks := create_chunks_more_workers data P h2
  have hargs : worker_args_list (_create_chunks data P) =
      (data.map (fun x => [x])).enum := by
    rw [hchunks]
    simp only [worker_args_list]
    have hA : ∀ a ∈ data.map (fun x => [x]), a ≠ ([] : List Row) := by
      intro a ha
      obtain ⟨x, _, rfl⟩ := List.mem_map.1 ha
      simp
    exact enumFrom_filter_nonempty (data.map (fun x => [x])) hA (P - data.length) 0
  refine ⟨hchunks, hargs, ?_, worker_args_nonempty _⟩
  rw [hargs]
  simp

/-- C7 witness: 2 rows, 5 requested workers. -/
theorem create_chunks_small_C7_witness :
    _create_chunks [[("a",1)],[("b",2)]] 5 =
      [[("a",1)]].map (fun x => [x]) ++ [[("b",2)]].map (fun x => [x]) ++
        List.replicate 3 ([] : List Row) ∧
    (worker_args_list (_create_chunks [[("a",1)],[("b",2)]] 5)).length = 2 ∧
    ∀ p ∈ worker_args_list (_create_chunks [[("a",1)],[("b",2)]] 5), p.2 ≠ [] := by
  have h := create_chunks_small_C7 [[("a",1)],[("b",2)]] 5 (by decide)
  refine ⟨?_, h.2.2.1, h.2.2.2⟩
  rw [h.1]
  rfl

/-- C9 counterexample: `_create_chunks` called with the negative worker count
`-1` does not fail at all (no `InvalidArgumentError`, no exception): the
Python `for i in range(-1)` loop body never runs and an empty list of chunks
is returned. -/
theorem create_chunks_invalid_C9_counterexample :
    _create_chunks_int [[("a",1)],[("b",2)],[("c",3)]] (-1) = Except.ok [] := by
  rfl

/-- C9 amended: no argument validation exists in `_create_chunks`.  With
`worker_count = 0` the division `len(data) // 0` raises `ZeroDivisionError`
(not an `InvalidArgumentError`); with a negative `worker_count` no error is
raised and the empty chunk list is returned; positive counts behave as
`_create_chunks`. -/
theorem create_chunks_invalid_C9 (data : List Row) :
    _create_chunks_int data 0 = Except.error PyError.zeroDivisionError ∧
    (∀ P : Int, P < 0 → _create_chunks_int data P = Except.ok []) ∧
    (∀ P : Int, 0 < P →
      _create_chunks_int data P = Except.ok (_create_chunks data P.toNat)) := by
  refine ⟨by simp [_create_chunks_int], ?_, ?_⟩
  · intro P hP
    have h0 : P ≠ 0 := by omega
    simp [_create_chunks_int, h0, hP]
  · intro P hP
    have h0 : P ≠ 0 := by omega
    have hneg : ¬ P < 0 := by omega
    simp [_create_chunks_int, h0, hneg]

/-- C9 witness: the amended statement evaluated at worker counts 0, -2, 3. -/
theorem create_chunks_invalid_C9_witness :
    _create_chunks_int [[("a",1)]] 0 = Except.error PyError.zeroDivisionError ∧
    ((-2 : Int) < 0 ∧ _create_chunks_int [[("a",1)]] (-2) = Except.ok []) ∧
    ((0 : Int) < 3 ∧
      _create_chunks_int [[("a",1)]] 3 = Except.ok (_create_chunks [[("a",1)]] 3)) := by
  have h := create_chunks_invalid_C9 [[("a",1)]]
  exact ⟨h.1, ⟨by decide, h.2.1 (-2) (by decide)⟩, ⟨by decide, h.2.2 3 (by decide)⟩⟩

theorem batchRetry_allFail (f : Nat → Bool) (hf : ∀ a, f a = true) :
    batchRetry f =
      ⟨MAX_RETRIES,
        [RETRY_DELAY * 2 ^ 1, RETRY_DELAY * 2 ^ 2, RETRY_DELAY * 2 ^ 3,
          RETRY_DELAY * 2 ^ 4], false⟩ := by
  simp [batchRetry, batchRetryAux, hf, MAX_RETRIES]

theorem workerGo_abort (fails : Nat → Nat → Bool) :
    ∀ (bs : List (List Row)) (i k : Nat), i < bs.length →
      (∀ j, j < i → (batchRetry (fails (k + j))).ok = true) →
      (batchRetry (fails (k + i))).ok = false →
      workerGo fails k bs =
        ⟨(bs.take i).map List.length,
          ((List.range i).map (fun j => (batchRetry (fails (k + j))).sleeps)).flatten ++
            (batchRetry (fails (k + i))).sleeps,
          ((List.range i).map (fun j => (batchRetry (fails (k + j))).execs)) ++
            [(batchRetry (fails (k + i))).execs],
          true, true, none⟩ := by
  intro bs
  induction bs with
  | nil => intro i k hi; simp at hi
  | cons b rest ih =>
    intro i k hi hok hfail
    cases i with
    | zero =>
      simp only [Nat.add_zero] at hfail
      simp [workerGo, hfail]
    | succ i =>
      have h0 : (batchRetry (fails k)).ok = true := by
        have := hok 0 (by omega)
        simpa using this
      have hrec := ih i (k + 1)
        (by simpa using hi)
        (by intro j hj
            have := hok (j + 1) (by omega)
            have hkj : k + (j + 1) = k + 1 + j := by omega
            rwa [hkj] at this)
        (by have hki : k + (i + 1) = k + 1 + i := by omega
            rwa [hki] at hfail)
      simp only [workerGo, h0, if_true]
      rw [hrec]
      refine WorkerResult.mk.injEq .. ▸ ?_
      constructor
      · simp
      constructor
      · rw [List.range_succ_eq_map, List.map_cons, List.flatten_cons, List.map_map]
        have hshift :
            (List.range i).map
                ((fun j => (batchRetry (fails (k + j))).sleeps) ∘ Nat.succ) =
              (List.range i).map (fun j => (batchRetry (fails (k + 1 + j))).sleeps) := by
          apply List.map_congr_left
          intro a _
          simp only [Function.comp_apply]
          have : k + (a + 1) = k + 1 + a := by omega
          rw [this]
        rw [hshift]
        simp [List.append_assoc]
        have : k + (i + 1) = k + 1 + i := by omega
        rw [this]
      constructor
      · rw [List.range_succ_eq_map, List.map_cons, List.map_map]
        have hshift :
            (List.range i).map
                ((fun j => (batchRetry (fails (k + j))).execs) ∘ Nat.succ) =
              (List.range i).map (fun j => (batchRetry (fails (k + 1 + j))).execs) := by
          apply List.map_congr_left
          intro a _
          simp only [Function.comp_apply]
          have : k + (a + 1) = k + 1 + a := by omega
          rw [this]
        rw [hshift]
        simp
        have : k + (i + 1) = k + 1 + i := by omega
        rw [this]
      exact ⟨rfl, rfl, rfl⟩

theorem qCount_append (a b : String) : qCount (a ++ b) = qCount a + qCount b := by
  simp [qCount, String.data_append, List.count_append]

theorem qCount_intercalate_go (s : String) :
    ∀ (as : List String) (acc : String),
      qCount (String.intercalate.go acc s as) =
        qCount acc + (as.map (fun a => qCount s + qCount a)).sum := by
  intro as
  induction as with
  | nil => intro acc; simp [String.intercalate.go]
  | cons a as ih =>
    intro acc
    show qCount (String.intercalate.go (acc ++ s ++ a) s as) = _
    rw [ih, qCount_append, qCount_append]
    simp only [List.map_cons, List.sum_cons]
    omega

theorem qCount_intercalate (s : String) :
    ∀ l : List String, qCount (String.intercalate s l) =
      (l.map qCount).sum + (l.length - 1) * qCount s := by
  intro l
  cases l with
  | nil => simp [String.intercalate, qCount]
  | cons a as =>
    show qCount (String.intercalate.go a s as) = _
    rw [qCount_intercalate_go]
    have hsum : (as.map (fun b => qCount s + qCount b)).sum =
        as.length * qCount s + (as.map qCount).sum := by
      induction as with
      | nil => simp
      | cons b bs ih =>
        simp only [List.map_cons, List.sum_cons, List.length_cons, ih, Nat.succ_mul]
        omega
    rw [hsum]
    simp only [List.map_cons, List.sum_cons, List.length_cons]
    have hlen : as.length + 1 - 1 = as.length := by omega
    rw [hlen]
    omega

theorem qCount_placeholders (cols : List String) :
    qCount (String.intercalate ", " (cols.map (fun _ => "?"))) = cols.length := by
  rw [qCount_intercalate]
  have h1 : (cols.map (fun _ => "?")).map qCount = List.replicate cols.length 1 := by
    induction cols with
    | nil => simp
    | cons c cs ih =>
      simp only [List.map_cons, List.length_cons, List.replicate_succ]
      rw [ih]
      rfl
  rw [h1]
  have h2 : qCount ", " = 0 := rfl
  rw [h2]
  simp [List.sum_replicate]

theorem qCount_no_placeholder (cols : List String) (h : ∀ c ∈ cols, '?' ∉ c.data) :
    qCount (String.intercalate ", " cols) = 0 := by
  rw [qCount_intercalate]
  have h1 : (cols.map qCount).sum = 0 := by
    apply List.sum_eq_zero
    intro x hx
    obtain ⟨c, hc, rfl⟩ := List.mem_map.1 hx
    exact List.count_eq_zero.2 (h c hc)
  have h2 : qCount ", " = 0 := rfl
  rw [h1, h2]
  simp

/-- C6: for every non-empty ordered list of distinct column names (none of
which contains the placeholder character, nor do keyspace and table), the
generated statement contains exactly one positional placeholder per column —
all placeholders being the identical "?", their order necessarily follows the
column order — and the builder is a deterministic pure function. -/
theorem generate_insert_statement_C6 (ks tbl : String) (cols : List String)
    (hne : cols ≠ []) (hnd : cols.Nodup)
    (hks : '?' ∉ ks.data) (htbl : '?' ∉ tbl.data)
    (hcols : ∀ c ∈ cols, '?' ∉ c.data) :
    qCount (_generate_insert_statement ks tbl cols) = cols.length ∧
    (∀ ks2 tbl2 cols2, ks = ks2 → tbl = tbl2 → cols = cols2 →
      _generate_insert_statement ks tbl cols =
        _generate_insert_statement ks2 tbl2 cols2) := by
  constructor
  · simp only [_generate_insert_statement, qCount_append]
    rw [qCount_placeholders, qCount_no_placeholder cols hcols]
    have e1 : qCount "INSERT INTO " = 0 := rfl
    have e2 : qCount "." = 0 := rfl
    have e3 : qCount " (" = 0 := rfl
    have e4 : qCount ") VALUES (" = 0 := rfl
    have e5 : qCount ");" = 0 := rfl
    have e6 : qCount ks = 0 := List.count_eq_zero.2 hks
    have e7 : qCount tbl = 0 := List.count_eq_zero.2 htbl
    omega
  · rintro ks2 tbl2 cols2 rfl rfl rfl
    rfl

/-- C6 witness: two columns, concrete keyspace and table. -/
theorem generate_insert_statement_C6_witness :
    qCount (_generate_insert_statement "ks" "movies" ["title", "year"]) = 2 ∧
    (∀ ks2 tbl2 cols2, "ks" = ks2 → "movies" = tbl2 → ["title", "year"] = cols2 →
      _generate_insert_statement "ks" "movies" ["title", "year"] =
        _generate_insert_statement ks2 tbl2 cols2) := by
  have h := generate_insert_statement_C6 "ks" "movies" ["title", "year"]
    (by decide) (by decide) (by decide) (by decide) (by decide)
  exact h

/-- C8 counterexample: `_generate_insert_statement` with an empty column list
raises nothing at all (there is no `InvalidSchemaError` anywhere in the code);
it returns the degenerate statement with empty column and placeholder lists. -/
theorem generate_insert_statement_empty_C8_counterexample :
    _generate_insert_statement "ks" "movies" [] =
      "INSERT INTO ks.movies () VALUES ();" := by
  rfl

/-- C8 amended: called with an empty column list the builder does not fail;
it returns the (syntactically invalid for the database, but well-defined)
statement with empty parentheses and zero placeholders. -/
theorem generate_insert_statement_empty_C8 (ks tbl : String) :
    _generate_insert_statement ks tbl [] =
      "INSERT INTO " ++ ks ++ "." ++ tbl ++ " () VALUES ();" := by
  apply String.ext
  show ("INSERT INTO " ++ ks ++ "." ++ tbl ++ " (" ++ "" ++ ") VALUES (" ++ "" ++
      ");").data = _
  simp only [String.data_append, List.append_assoc]
  congr 1

theorem counterAt_map_zero :
    ∀ (cuts : List Nat) (incs : List (List Nat)),
      counterAt (cuts.map (fun _ => 0)) incs = 0 := by
  intro cuts
  induction cuts with
  | nil => intro incs; simp [counterAt]
  | cons c cs ih =>
    intro incs
    cases incs with
    | nil => simp [counterAt]
    | cons l ls =>
      simp only [counterAt, List.map_cons, List.zipWith_cons_cons, List.take_zero,
        List.sum_nil, List.sum_cons, Nat.zero_add]
      exact ih ls

theorem runIncs_all_nil (data : List Row) (P c : Nat)
    (fails : Nat → Nat → Nat → Bool) :
    runIncs data P c fails =
      (worker_args_list (_create_chunks data P)).map (fun _ => ([] : List Nat)) := by
  simp [runIncs, _worker]

theorem counterAt_map_nil :
    ∀ (cuts : List Nat) (xs : List (Nat × List Row)),
      counterAt cuts (xs.map (fun _ => ([] : List Nat))) = 0 := by
  intro cuts
  induction cuts with
  | nil => intro xs; simp [counterAt]
  | cons c cs ih =>
    intro xs
    cases xs with
    | nil => simp [counterAt]
    | cons x xs =>
      simp only [counterAt, List.map_cons, List.zipWith_cons_cons, List.take_nil,
        List.sum_nil, List.sum_cons, Nat.zero_add]
      exact ih xs

/-- C10: the shared progress counter starts at 0 (`Value("i", 0)`), is
incremented only by the length of a batch whose execution completed, each
batch contributing at most once, so at every moment of the run — every
choice of how many of its committed increments each worker has already
added — the counter is between 0 and the dataset length.  In this program
the bound is extreme: every worker dies with the line-81 `TypeError` before
committing any batch, so each worker's increment list is empty and the
counter stays 0 ≤ N throughout. -/
theorem counter_bounds_C10 (data : List Row) (P c : Nat)
    (fails : Nat → Nat → Nat → Bool) (cuts : List Nat) :
    counterAt (cuts.map (fun _ => 0)) (runIncs data P c fails) = 0 ∧
    counterAt cuts (runIncs data P c fails) ≤ data.length := by
  refine ⟨counterAt_map_zero cuts _, ?_⟩
  rw [runIncs_all_nil, counterAt_map_nil]
  exact Nat.zero_le _

/-- C3 amended: `multi_ingest` validates only that the dataset is a non-empty
list (whose first element is a dict); uniformity of the rows' key sets is
assumed, not checked, so a dataset with inconsistent keys proceeds without
error.  The empty (or non-list) dataset raises `ValueError` — the code's
counterpart of the spec's `InvalidArgumentError`. -/
theorem multi_ingest_validation_C3 (data : List Row) (ks tbl : String) (P c : Nat)
    (fails : Nat → Nat → Nat → Bool) :
    (data = [] → multi_ingest data ks tbl P c fails =
      Except.error
        (PyError.valueError "Data must be a non-empty list of dictionaries")) ∧
    (data ≠ [] → ∃ r, multi_ingest data ks tbl P c fails = Except.ok r) := by
  constructor
  · intro h
    simp [multi_ingest, h]
  · intro h
    cases hm : multi_ingest data ks tbl P c fails with
    | error e =>
      simp only [multi_ingest, if_neg h] at hm
      exact Except.noConfusion hm
    | ok r => exact ⟨r, rfl⟩

/-- C3 witness: the empty dataset raises; a one-row dataset succeeds. -/
theorem multi_ingest_validation_C3_witness :
    multi_ingest [] "ks" "t" 2 10 (fun _ _ _ => false) =
      Except.error
        (PyError.valueError "Data must be a non-empty list of dictionaries") ∧
    ∃ r, multi_ingest [[("a",1)]] "ks" "t" 2 10 (fun _ _ _ => false) =
      Except.ok r := by
  exact ⟨(multi_ingest_validation_C3 [] "ks" "t" 2 10 (fun _ _ _ => false)).1 rfl,
    (multi_ingest_validation_C3 [[("a",1)]] "ks" "t" 2 10 (fun _ _ _ => false)).2
      (by simp)⟩

/-- The batch loop of lines 84-113, run on the batches of a chunk: a batch
failing every attempt would cause exactly `MAX_RETRIES = 5` executions, with
the strictly increasing delays `RETRY_DELAY * 2 ^ attempt` slept between
consecutive attempts, then the event set, the session shut down and the
remaining batches dropped with no counter increment.  This loop is dead code
behind the line-81 `TypeError`; the theorem documents that the retry
machinery, as written, matches the spec's retry bound — evidence that the
spec states the code's evident intent and the unreachable call is the slip. -/
theorem workerLoop_retry_exhaustion (fails : Nat → Nat → Bool)
    (chunk : List Row) (c i : Nat)
    (hi : i < (batchesOf chunk c).length)
    (hprev : ∀ j, j < i → (batchRetry (fails j)).ok = true)
    (hfail : ∀ a, fails i a = true) :
    (workerGo fails 0 (batchesOf chunk c)).attempts =
      ((List.range i).map (fun j => (batchRetry (fails j)).execs)) ++ [MAX_RETRIES] ∧
    (workerGo fails 0 (batchesOf chunk c)).sleeps =
      ((List.range i).map (fun j => (batchRetry (fails j)).sleeps)).flatten ++
        [RETRY_DELAY * 2 ^ 1, RETRY_DELAY * 2 ^ 2, RETRY_DELAY * 2 ^ 3,
          RETRY_DELAY * 2 ^ 4] ∧
    List.Chain' (· < ·)
      [RETRY_DELAY * 2 ^ 1, RETRY_DELAY * 2 ^ 2, RETRY_DELAY * 2 ^ 3,
        RETRY_DELAY * 2 ^ 4] ∧
    (workerGo fails 0 (batchesOf chunk c)).eventSet = true ∧
    (workerGo fails 0 (batchesOf chunk c)).sessionClosed = true ∧
    (workerGo fails 0 (batchesOf chunk c)).incs =
      ((batchesOf chunk c).take i).map List.length := by
  have hret := batchRetry_allFail (fails i) hfail
  have habort := workerGo_abort fails (batchesOf chunk c) i 0 hi
    (by intro j hj; simpa using hprev j hj)
    (by rw [Nat.zero_add, hret])
  rw [habort]
  have hz : ∀ j : Nat, (0 : Nat) + j = j := fun j => Nat.zero_add j
  constructor
  · simp only [hz]
    rw [hret]
  constructor
  · simp only [hz]
    rw [hret]
  constructor
  · simp only [List.chain'_cons, List.chain'_singleton, and_true]
    refine ⟨?_, ?_, ?_⟩ <;> · rw [RETRY_DELAY]; norm_num
  exact ⟨rfl, rfl, rfl⟩

/-- C2 (code bug): evaluated at a concrete input whose batches would fail on
every attempt, the worker makes zero execution attempts, sleeps no backoff
delay, commits nothing, does not set the shared event, and never creates or
shuts down a session: it dies with the `TypeError` raised by the
zero-argument `create_session()` call at line 81.  The claimed behaviour —
exactly `MAX_RETRIES` attempts with strictly increasing delays, then abort
flag set, session closed, immediate return — is the evident intent of the
retry loop of lines 94-113 (see `workerLoop_retry_exhaustion`), but that
loop is unreachable: the code, not the claim, is wrong. -/
theorem worker_session_typeerror_C2 :
    _worker false (fun _ _ => true) [[("a",1)],[("a",2)]] 10 =
      ⟨[], [], [], false, false, some PyError.typeError⟩ := by
  rfl

/-- C4 counterexample: the claim says every worker checks the shared abort
flag between batches, so that a worker observing it set starts no further
batch.  In the code there is no such check point: the worker's observable
behaviour is identical whether the flag is set (`event0 = true`) or not —
either way it raises `TypeError` at session creation before its first batch,
starting zero batches and committing zero rows — so no worker ever reads the
flag at any between-batch point (the batch loop itself, lines 94-113,
contains no `event.is_set()` either). -/
theorem worker_abort_check_C4_counterexample :
    _worker true (fun _ _ => false) [[("a",1)],[("b",2)],[("c",3)]] 2 =
      _worker false (fun _ _ => false) [[("a",1)],[("b",2)],[("c",3)]] 2 ∧
    (_worker true (fun _ _ => false) [[("a",1)],[("b",2)],[("c",3)]] 2).attempts =
      [] ∧
    (_worker true (fun _ _ => false) [[("a",1)],[("b",2)],[("c",3)]] 2).incs = [] ∧
    (_worker true (fun _ _ => false) [[("a",1)],[("b",2)],[("c",3)]] 2).raised =
      some PyError.typeError := by
  exact ⟨rfl, rfl, rfl, rfl⟩

/-- C4 amended: the worker never reads the shared abort flag — its result is
identical for every initial flag value — and it never reaches a between-batch
point at all: every worker raises `TypeError` at session creation before its
first batch, so no worker starts any batch or commits any rows whether or not
the flag is set.  Only the monitor's polling loop observes the flag. -/
theorem worker_abort_check_C4 (e1 e2 : Bool) (fails : Nat → Nat → Bool)
    (chunk : List Row) (c : Nat) :
    _worker e1 fails chunk c = _worker e2 fails chunk c ∧
    (_worker e1 fails chunk c).attempts = [] ∧
    (_worker e1 fails chunk c).incs = [] ∧
    (_worker e1 fails chunk c).raised = some PyError.typeError := by
  exact ⟨rfl, rfl, rfl, rfl⟩

theorem multi_ingest_counter_zero (data : List Row) (ks tbl : String) (P c : Nat)
    (fails : Nat → Nat → Nat → Bool) (hdata : data ≠ []) :
    multi_ingest data ks tbl P c fails =
      Except.ok
        ⟨_generate_insert_statement ks tbl ((data.headD []).map Prod.fst),
          0, data.length, PrintedOutcome.abortedMsg 0 data.length, none⟩ := by
  simp only [multi_ingest, if_neg hdata]
  have hzero : (((worker_args_list (_create_chunks data P)).map
      (fun p => _worker false (fails p.1) p.2 c)).map
        (fun w => w.incs.sum)).sum = 0 := by
    rw [List.map_map]
    apply List.sum_eq_zero
    intro x hx
    obtain ⟨p, _, rfl⟩ := List.mem_map.1 hx
    rfl
  rw [hzero, if_pos (List.length_pos.2 hdata)]

/-- C5 amended: `multi_ingest` returns no `IngestionReport` — the Python body
has no `return` statement (`returned = none`); the outcome is printed.
Because every worker dies with `TypeError` at session creation (line 81),
every run over a non-empty dataset — whatever the batch-failure oracle, in
particular a failure-free one — ends with the final counter 0 and prints the
aborted message reporting 0 of the N total rows committed; the success
message is unreachable for non-empty data.  In general, whenever the final
counter is below the total, the aborted message carries the committed and
total counts. -/
theorem multi_ingest_report_C5 (data : List Row) (ks tbl : String) (P c : Nat)
    (fails : Nat → Nat → Nat → Bool) (hdata : data ≠ []) :
    (∃ r : MultiIngestResult,
      multi_ingest data ks tbl P c fails = Except.ok r ∧
      r.finalCounter = 0 ∧
      r.rowCount = data.length ∧
      r.printed = PrintedOutcome.abortedMsg 0 data.length ∧
      r.returned = none) ∧
    (∀ (fails2 : Nat → Nat → Nat → Bool) (r : MultiIngestResult),
      multi_ingest data ks tbl P c fails2 = Except.ok r →
      r.finalCounter < r.rowCount →
      r.printed = PrintedOutcome.abortedMsg r.finalCounter r.rowCount) := by
  constructor
  · exact ⟨_, multi_ingest_counter_zero data ks tbl P c fails hdata,
      rfl, rfl, rfl, rfl⟩
  · intro fails2 r hr hlt
    simp only [multi_ingest, if_neg hdata] at hr
    have hr' := (Except.ok.inj hr).symm
    subst hr'
    simp only at hlt ⊢
    rw [if_pos hlt]

/-- C5 witness: a 4-row ingestion with 2 worker contexts and a failure-free
batch oracle still commits 0 rows and prints the aborted message. -/
theorem multi_ingest_report_C5_witness :
    (∃ r : MultiIngestResult,
      multi_ingest [[("a",1)],[("a",2)],[("a",3)],[("a",4)]] "ks" "t" 2 10
          (fun _ _ _ => false) = Except.ok r ∧
      r.finalCounter = 0 ∧
      r.rowCount = 4 ∧
      r.printed = PrintedOutcome.abortedMsg 0 4 ∧
      r.returned = none) ∧
    (∀ (fails2 : Nat → Nat → Nat → Bool) (r : MultiIngestResult),
      multi_ingest [[("a",1)],[("a",2)],[("a",3)],[("a",4)]] "ks" "t" 2 10 fails2 =
        Except.ok r →
      r.finalCounter < r.rowCount →
      r.printed = PrintedOutcome.abortedMsg r.finalCounter r.rowCount) := by
  exact multi_ingest_report_C5 [[("a",1)],[("a",2)],[("a",3)],[("a",4)]]
    "ks" "t" 2 10 (fun _ _ _ => false) (by simp)

/-- C5 counterexample: the claim says `bulk_ingest` returns an
`IngestionReport` value and that a run with no failing batch ends with
`committed_rows = total_rows = N` and `aborted = false`.  On a concrete
4-row run with a failure-free batch oracle, the embedded `multi_ingest` —
faithful to the Python body — produces `returned = none` (the function has
no `return` statement) and the printed outcome `Aborted 0/4`: every worker
died with `TypeError` at session creation, so the counter never moved. -/
theorem multi_ingest_report_C5_counterexample :
    multi_ingest [[("a",1)],[("a",2)],[("a",3)],[("a",4)]] "ks" "t" 2 10
        (fun _ _ _ => false) =
      Except.ok ⟨"INSERT INTO ks.t (a) VALUES (?);", 0, 4,
        PrintedOutcome.abortedMsg 0 4, none⟩ := by
  rfl

/-- C3 counterexample: a dataset whose two rows have different key sets
(`a` versus `b`).  The claim says `multi_ingest` fails fast with a validation
error before any worker starts; in fact the validation only checks that
`data` is a non-empty list whose first element is a dict, so the call raises
no error and proceeds to spawn a worker per non-empty chunk (each then dying
with `TypeError` at session creation, whence the 0-of-2 aborted outcome). -/
theorem multi_ingest_validation_C3_counterexample :
    multi_ingest [[("a",1)],[("b",2)]] "ks" "t" 2 10 (fun _ _ _ => false) =
      Except.ok ⟨"INSERT INTO ks.t (a) VALUES (?);", 0, 2,
        PrintedOutcome.abortedMsg 0 2, none⟩ := by
  rfl
